import Mathlib

/-!
Shallow embedding of the conditional-payment escrow engine
(`contracts/HTLCMultiSig.sol`): a hash-time-locked contract combined with
2-of-3 multi-signature arbitration.

Modelling conventions:
* Machine words (`bytes32`, `uint256`, `address`) are natural numbers; the
  null address is `0`.
* The contract's storage mapping `trades` is a total function from trade
  identifiers to `Trade` records; Solidity's zero-initialised default record
  (whose `status` decodes to `Uninitialized`) is `emptyTrade`.
* Each external function becomes a pure transition returning either an error
  (the `require` that fired, reverting all effects) or the new ledger together
  with the ordered list of primitive actions it performed (storage writes,
  outbound value transfers, event emissions), so that intra-call ordering is
  observable.
* The platform hash primitives `sha256`/`keccak256` and the OpenZeppelin
  helpers (`ECDSA.recover`, `MessageHashUtils.toEthSignedMessageHash`) are not
  part of the repository; they are modelled from the spec as idealised
  injective functions.  Signature recovery is idealised by passing the two
  recovered signer identities directly to the transitions; the spec guarantees
  recovery is deterministic and (per the underlying library) never yields the
  null identity.
-/

namespace HTLC

/-- Trade status, `enum Status` of the contract (declaration order matters:
`Uninitialized` is Solidity's zero default). -/
inductive Status where
  | Uninitialized : Status
  | Locked : Status
  | Completed : Status
  | Refunded : Status
deriving DecidableEq

/-- The `Trade` struct of the contract. -/
structure Trade where
  buyer : Nat
  seller : Nat
  arbiter : Nat
  amount : Nat
  hashLock : Nat
  timelock : Nat
  status : Status
deriving DecidableEq

/-- Solidity's zero-initialised default `Trade`, returned by the `trades`
mapping for an absent key. -/
def emptyTrade : Trade :=
  { buyer := 0, seller := 0, arbiter := 0, amount := 0, hashLock := 0,
    timelock := 0, status := Status.Uninitialized }

/-- The `trades` storage mapping. -/
def Ledger : Type := Nat → Trade

/-- The empty ledger (every key absent). -/
def emptyLedger : Ledger := fun _ => emptyTrade

/-- Point update of the `trades` mapping. -/
def setTrade (l : Ledger) (tradeId : Nat) (t : Trade) : Ledger :=
  fun i => if i = tradeId then t else l i

/-- The revert reasons of the contract, one per `require`, under the names the
spec gives them. -/
inductive Err where
  | ZeroAmount : Err
  | DuplicateTradeId : Err
  | InvalidAddress : Err
  | InvalidState : Err
  | InvalidPreimage : Err
  | MissingRequiredSignature : Err
  | InvalidRecipient : Err
  | InsufficientDistinctSignatures : Err
  | TimelockNotExpired : Err
deriving DecidableEq

/-- The events declared by the contract. -/
inductive Event where
  | Locked (tradeId buyer seller amount hashLock timelock : Nat) : Event
  | Withdrawn (tradeId recipient : Nat) (method : String) : Event
  | Refunded (tradeId recipient : Nat) : Event
deriving DecidableEq

/-- Primitive effects of a call, in the order the contract performs them:
storage writes, outbound value transfers and event emissions. -/
inductive Action where
  | SetTrade (tradeId : Nat) (t : Trade) : Action
  | SetStatus (tradeId : Nat) (s : Status) : Action
  | Transfer (recipient amount : Nat) : Action
  | Emit (e : Event) : Action
deriving DecidableEq

/-- Big-endian byte serialisation of the low `k` bytes of a word; this is
`abi.encodePacked` of a `bytes32` (`k = 32`) or an `address` (`k = 20`). -/
def natToBytesBE : Nat → Nat → List Nat
  | 0, _ => []
  | k + 1, n => natToBytesBE k (n / 256) ++ [n % 256]

/-- Modelled from the spec: a collision-resistant one-way hash over byte
strings ("collision-resistant one-way hash equality, byte-exact"), provided by
the platform and not part of the repository.  Idealised as an injective
encoding of byte lists into numbers (base 257 with digits shifted to 1..256,
so distinct byte strings of any lengths receive distinct values). -/
def hashBytes (m : List Nat) : Nat :=
  Nat.ofDigits 257 (m.map fun b => b + 1)

/-- Modelled from the spec: the `sha256` platform primitive used for the hash
lock, idealised as an injective hash tagged apart from `keccak256h`. -/
def sha256h (m : List Nat) : Nat := hashBytes (0 :: m)

/-- Modelled from the spec: the `keccak256` platform primitive used for the
signature digests, idealised as an injective hash tagged apart from
`sha256h`. -/
def keccak256h (m : List Nat) : Nat := hashBytes (1 :: m)

/-- The fixed Ethereum signed-message tag, the "fixed encoding prefix" of the
spec: the byte `0x19` followed by the ASCII of "Ethereum Signed Message:\n32". -/
def ethMsgTag : List Nat :=
  25 :: (String.toList "Ethereum Signed Message:\n32").map Char.toNat

/-- Modelled from the spec: OpenZeppelin's
`MessageHashUtils.toEthSignedMessageHash` (library code, not in the
repository): rehashes a digest under the fixed signed-message tag. -/
def toEthSignedMessageHash (h : Nat) : Nat :=
  keccak256h (ethMsgTag ++ Nat.digits 256 h)

/-- The digest signed on the preimage path (`withdrawWithPreimage`):
`toEthSignedMessageHash(keccak256(abi.encodePacked(_tradeId, _preimage)))`. -/
def preimageDigest (tradeId preimage : Nat) : Nat :=
  toEthSignedMessageHash
    (keccak256h (natToBytesBE 32 tradeId ++ natToBytesBE 32 preimage))

/-- The digest signed on the arbitration path (`resolveDispute`):
`toEthSignedMessageHash(keccak256(abi.encodePacked(_tradeId, _recipient)))`;
the `address` serialises to 20 bytes. -/
def arbitrationDigest (tradeId recipient : Nat) : Nat :=
  toEthSignedMessageHash
    (keccak256h (natToBytesBE 32 tradeId ++ natToBytesBE 20 recipient))

/-- `lock`: escrow `value` under `tradeId`.  The caller is `sender`
(`msg.sender`), the deposit is `value` (`msg.value`), the clock is `now`
(`block.timestamp`).  The three `require`s fire in source order. -/
def lock (l : Ledger) (sender value now tradeId seller arbiter hashLock
    lockTime : Nat) : Except Err (Ledger × List Action) :=
  if value = 0 then .error Err.ZeroAmount
  else if (l tradeId).status ≠ Status.Uninitialized then
    .error Err.DuplicateTradeId
  else if seller = 0 ∨ arbiter = 0 then .error Err.InvalidAddress
  else
    let t : Trade :=
      { buyer := sender, seller := seller, arbiter := arbiter, amount := value,
        hashLock := hashLock, timelock := now + lockTime,
        status := Status.Locked }
    .ok (setTrade l tradeId t,
      [Action.SetTrade tradeId t,
       Action.Emit (Event.Locked tradeId sender seller value hashLock
         (now + lockTime))])

/-- `withdrawWithPreimage` (Path A).  `signer1`/`signer2` are the identities
recovered from `_sig1`/`_sig2` against `preimageDigest tradeId preimage`. -/
def withdrawWithPreimage (l : Ledger) (tradeId preimage signer1 signer2 :
    Nat) : Except Err (Ledger × List Action) :=
  let t := l tradeId
  if t.status ≠ Status.Locked then .error Err.InvalidState
  else if sha256h (natToBytesBE 32 preimage) ≠ t.hashLock then
    .error Err.InvalidPreimage
  else if ¬ ((signer1 = t.buyer ∨ signer2 = t.buyer) ∧
      (signer1 = t.seller ∨ signer2 = t.seller)) then
    .error Err.MissingRequiredSignature
  else
    .ok (setTrade l tradeId { t with status := Status.Completed },
      [Action.SetStatus tradeId Status.Completed,
       Action.Transfer t.seller t.amount,
       Action.Emit (Event.Withdrawn tradeId t.seller "Preimage + MultiSig")])

/-- One iteration of the outer signer loop of `resolveDispute`: the inner loop
over the three participants, with its `break`, counts `s` at most once — when
`s` matches some participant and differs from `lastSigner`. -/
def countStep (participants : List Nat) (acc : Nat × Nat) (s : Nat) :
    Nat × Nat :=
  if s ∈ participants ∧ s ≠ acc.2 then (acc.1 + 1, s) else acc

/-- The `validSignatures` tally of `resolveDispute`: fold the counting step
over the two recovered signers, starting from count `0` and
`lastSigner = address(0)`. -/
def validSignatures (buyer seller arbiter signer1 signer2 : Nat) : Nat :=
  (List.foldl (countStep [buyer, seller, arbiter]) (0, 0) [signer1, signer2]).1

/-- `resolveDispute` (Path B).  `signer1`/`signer2` are the identities
recovered from `_sig1`/`_sig2` against `arbitrationDigest tradeId recipient`. -/
def resolveDispute (l : Ledger) (tradeId recipient signer1 signer2 : Nat) :
    Except Err (Ledger × List Action) :=
  let t := l tradeId
  if t.status ≠ Status.Locked then .error Err.InvalidState
  else if ¬ (recipient = t.buyer ∨ recipient = t.seller) then
    .error Err.InvalidRecipient
  else if validSignatures t.buyer t.seller t.arbiter signer1 signer2 < 2 then
    .error Err.InsufficientDistinctSignatures
  else
    .ok (setTrade l tradeId { t with status := Status.Completed },
      [Action.SetStatus tradeId Status.Completed,
       Action.Transfer recipient t.amount,
       Action.Emit (Event.Withdrawn tradeId recipient "Arbitration")])

/-- `refund`: after expiry, return the deposit to the buyer. -/
def refund (l : Ledger) (now tradeId : Nat) :
    Except Err (Ledger × List Action) :=
  let t := l tradeId
  if t.status ≠ Status.Locked then .error Err.InvalidState
  else if now < t.timelock then .error Err.TimelockNotExpired
  else
    .ok (setTrade l tradeId { t with status := Status.Refunded },
      [Action.SetStatus tradeId Status.Refunded,
       Action.Transfer t.buyer t.amount,
       Action.Emit (Event.Refunded tradeId t.buyer)])

/-- Did a call succeed? -/
def isOkE (e : Except Err (Ledger × List Action)) : Bool :=
  match e with
  | .ok _ => true
  | .error _ => false

/-- The revert reason of a call, if it reverted. -/
def errOf (e : Except Err (Ledger × List Action)) : Option Err :=
  match e with
  | .ok _ => none
  | .error err => some err

/-- The action trace of a call (empty when it reverted). -/
def traceOf (e : Except Err (Ledger × List Action)) : List Action :=
  match e with
  | .ok (_, tr) => tr
  | .error _ => []

/-- The ledger after a call (unchanged when it reverted: a revert rolls back
every effect). -/
def stateOf (l : Ledger) (e : Except Err (Ledger × List Action)) : Ledger :=
  match e with
  | .ok (l2, _) => l2
  | .error _ => l

/-- Replay of the storage effects of an action trace (transfers and events do
not touch the `trades` mapping). -/
def applyAction (l : Ledger) : Action → Ledger
  | Action.SetTrade tradeId t => setTrade l tradeId t
  | Action.SetStatus tradeId s => setTrade l tradeId { l tradeId with status := s }
  | Action.Transfer _ _ => l
  | Action.Emit _ => l

/-- Replay of a whole trace. -/
def applyActions (l : Ledger) (actions : List Action) : Ledger :=
  List.foldl applyAction l actions

/-- Membership in the participant set `{buyer, seller, arbiter}` of a trade. -/
def inParticipants (t : Trade) (x : Nat) : Prop :=
  x = t.buyer ∨ x = t.seller ∨ x = t.arbiter

/-- A concrete well-formed trade used to exercise the transitions: distinct
parties, hash lock committing to preimage `7`. -/
def tradeB : Trade :=
  { buyer := 1, seller := 2, arbiter := 3, amount := 5,
    hashLock := sha256h (natToBytesBE 32 7), timelock := 100,
    status := Status.Locked }

/-- A concrete degenerate trade: the buyer locked themself as seller. -/
def tradeA : Trade :=
  { buyer := 1, seller := 1, arbiter := 2, amount := 5,
    hashLock := sha256h (natToBytesBE 32 7), timelock := 100,
    status := Status.Locked }

/-- Ledger holding `tradeB` under identifier `10`. -/
def ledgerB : Ledger := fun i => if i = 10 then tradeB else emptyTrade

/-- Ledger holding `tradeA` under identifier `10`. -/
def ledgerA : Ledger := fun i => if i = 10 then tradeA else emptyTrade

/-! ### Basic facts about the ledger and the byte serialisation -/

theorem setTrade_same (l : Ledger) (tradeId : Nat) (t : Trade) :
    setTrade l tradeId t tradeId = t := by
  simp [setTrade]

theorem setTrade_ne (l : Ledger) (tradeId : Nat) (t : Trade) {j : Nat}
    (h : j ≠ tradeId) : setTrade l tradeId t j = l j := by
  simp [setTrade, h]

theorem natToBytesBE_length (k n : Nat) : (natToBytesBE k n).length = k := by
  induction k generalizing n with
  | zero => rfl
  | succ k ih => simp [natToBytesBE, ih]

theorem natToBytesBE_lt (k n : Nat) : ∀ b ∈ natToBytesBE k n, b < 256 := by
  induction k generalizing n with
  | zero => intro b hb; simp [natToBytesBE] at hb
  | succ k ih =>
    intro b hb
    simp only [natToBytesBE, List.mem_append, List.mem_singleton] at hb
    rcases hb with hb | hb
    · exact ih _ b hb
    · subst hb; exact Nat.mod_lt _ (by norm_num)

theorem natToBytesBE_mod {k n m : Nat}
    (h : natToBytesBE k n = natToBytesBE k m) : n % 256 ^ k = m % 256 ^ k := by
  induction k generalizing n m with
  | zero => omega
  | succ k ih =>
    simp only [natToBytesBE] at h
    have hlen : (natToBytesBE k (n / 256)).length =
        (natToBytesBE k (m / 256)).length := by
      simp [natToBytesBE_length]
    obtain ⟨h1, h2⟩ := List.append_inj h hlen
    have e1 : n % 256 = m % 256 := by simpa using h2
    have e2 : n / 256 % 256 ^ k = m / 256 % 256 ^ k := ih h1
    have r1 : n % 256 ^ (k + 1) = n % 256 + 256 * (n / 256 % 256 ^ k) := by
      rw [pow_succ, mul_comm (256 ^ k) 256]; exact Nat.mod_mul
    have r2 : m % 256 ^ (k + 1) = m % 256 + 256 * (m / 256 % 256 ^ k) := by
      rw [pow_succ, mul_comm (256 ^ k) 256]; exact Nat.mod_mul
    rw [r1, r2, e1, e2]

/-! ### Injectivity of the idealised hashes (collision-freeness taken exact) -/

theorem hashBytes_digits (m : List Nat) (h : ∀ b ∈ m, b < 256) :
    Nat.digits 257 (hashBytes m) = m.map (fun b => b + 1) := by
  unfold hashBytes
  apply Nat.digits_ofDigits 257 (by norm_num)
  · intro l hl
    rcases List.mem_map.mp hl with ⟨b, hb, rfl⟩
    have := h b hb
    omega
  · intro hne
    rcases List.mem_map.mp (List.getLast_mem hne) with ⟨b, _, hfb⟩
    omega

theorem hashBytes_inj {m1 m2 : List Nat} (h1 : ∀ b ∈ m1, b < 256)
    (h2 : ∀ b ∈ m2, b < 256) (he : hashBytes m1 = hashBytes m2) : m1 = m2 := by
  have d : m1.map (fun b => b + 1) = m2.map (fun b => b + 1) := by
    rw [← hashBytes_digits m1 h1, ← hashBytes_digits m2 h2, he]
  exact List.map_injective_iff.mpr (add_left_injective 1) d

theorem keccak256h_inj {m1 m2 : List Nat} (h1 : ∀ b ∈ m1, b < 256)
    (h2 : ∀ b ∈ m2, b < 256) (he : keccak256h m1 = keccak256h m2) :
    m1 = m2 := by
  have hc : (1 :: m1) = (1 :: m2) := by
    apply hashBytes_inj _ _ he
    · intro b hb
      rcases List.mem_cons.mp hb with hb | hb
      · omega
      · exact h1 b hb
    · intro b hb
      rcases List.mem_cons.mp hb with hb | hb
      · omega
      · exact h2 b hb
  exact List.cons_injective.eq_iff.mp hc

theorem ethMsgTag_lt : ∀ b ∈ ethMsgTag, b < 256 := by decide

theorem toEthSignedMessageHash_inj :
    Function.Injective toEthSignedMessageHash := by
  intro a b he
  unfold toEthSignedMessageHash at he
  have hm : ethMsgTag ++ Nat.digits 256 a = ethMsgTag ++ Nat.digits 256 b := by
    apply keccak256h_inj _ _ he
    · intro x hx
      rcases List.mem_append.mp hx with hx | hx
      · exact ethMsgTag_lt x hx
      · exact Nat.digits_lt_base (by norm_num) hx
    · intro x hx
      rcases List.mem_append.mp hx with hx | hx
      · exact ethMsgTag_lt x hx
      · exact Nat.digits_lt_base (by norm_num) hx
  have hd := List.append_cancel_left hm
  have := congrArg (Nat.ofDigits 256) hd
  rwa [Nat.ofDigits_digits, Nat.ofDigits_digits] at this

/-- C4: the message digests signed on the two paths are domain-separated: the
preimage-path digest is the (prefix-tagged) hash of `trade_id ‖ preimage`, the
arbitration-path digest the (prefix-tagged) hash of
`trade_id ‖ recipient_identity`; no preimage-path digest ever coincides with
an arbitration-path digest (for any trades and inputs), and digests of
distinct trades (identifiers differing as 32-byte words) never coincide, so a
signature produced for one purpose or trade cannot be accepted for the
other. -/
theorem digest_domain_separation :
    (∀ tid p, preimageDigest tid p =
      toEthSignedMessageHash
        (keccak256h (natToBytesBE 32 tid ++ natToBytesBE 32 p))) ∧
    (∀ tid r, arbitrationDigest tid r =
      toEthSignedMessageHash
        (keccak256h (natToBytesBE 32 tid ++ natToBytesBE 20 r))) ∧
    (∀ tid p tid2 r, preimageDigest tid p ≠ arbitrationDigest tid2 r) ∧
    (∀ tid tid2 p p2, tid % 256 ^ 32 ≠ tid2 % 256 ^ 32 →
      preimageDigest tid p ≠ preimageDigest tid2 p2) ∧
    (∀ tid tid2 r r2, tid % 256 ^ 32 ≠ tid2 % 256 ^ 32 →
      arbitrationDigest tid r ≠ arbitrationDigest tid2 r2) := by
  have msgBytes : ∀ a b c d : Nat,
      ∀ x ∈ natToBytesBE a b ++ natToBytesBE c d, x < 256 := by
    intro a b c d x hx
    rcases List.mem_append.mp hx with hx | hx
    · exact natToBytesBE_lt _ _ x hx
    · exact natToBytesBE_lt _ _ x hx
  refine ⟨fun _ _ => rfl, fun _ _ => rfl, ?_, ?_, ?_⟩
  · intro tid p tid2 r he
    have hk := toEthSignedMessageHash_inj he
    have hm := keccak256h_inj (msgBytes 32 tid 32 p) (msgBytes 32 tid2 20 r) hk
    have := congrArg List.length hm
    simp [natToBytesBE_length] at this
  · intro tid tid2 p p2 hne he
    have hk := toEthSignedMessageHash_inj he
    have hm := keccak256h_inj (msgBytes 32 tid 32 p) (msgBytes 32 tid2 32 p2) hk
    have hlen : (natToBytesBE 32 tid).length = (natToBytesBE 32 tid2).length := by
      simp [natToBytesBE_length]
    exact hne (natToBytesBE_mod (List.append_inj hm hlen).1)
  · intro tid tid2 r r2 hne he
    have hk := toEthSignedMessageHash_inj he
    have hm := keccak256h_inj (msgBytes 32 tid 20 r) (msgBytes 32 tid2 20 r2) hk
    have hlen : (natToBytesBE 32 tid).length = (natToBytesBE 32 tid2).length := by
      simp [natToBytesBE_length]
    exact hne (natToBytesBE_mod (List.append_inj hm hlen).1)

/-- Witness for C4: concrete instances of the separation facts. -/
theorem digest_domain_separation_w :
    preimageDigest 1 2 ≠ arbitrationDigest 1 2 ∧
    preimageDigest 1 2 ≠ preimageDigest 2 2 ∧
    arbitrationDigest 1 2 ≠ arbitrationDigest 2 2 :=
  ⟨digest_domain_separation.2.2.1 1 2 1 2,
   digest_domain_separation.2.2.2.1 1 2 2 2 (by decide),
   digest_domain_separation.2.2.2.2 1 2 2 2 (by decide)⟩

/-! ### Inversion lemmas for the four transitions -/

theorem lock_ok_inv {l : Ledger}
    {sender value now tradeId seller arbiter hashLock lockTime : Nat}
    {l2 : Ledger} {tr : List Action}
    (h : lock l sender value now tradeId seller arbiter hashLock lockTime =
      .ok (l2, tr)) :
    value ≠ 0 ∧ (l tradeId).status = Status.Uninitialized ∧
    ¬ (seller = 0 ∨ arbiter = 0) ∧
    l2 = setTrade l tradeId
      { buyer := sender, seller := seller, arbiter := arbiter, amount := value,
        hashLock := hashLock, timelock := now + lockTime,
        status := Status.Locked } ∧
    tr = [Action.SetTrade tradeId
        { buyer := sender, seller := seller, arbiter := arbiter,
          amount := value, hashLock := hashLock, timelock := now + lockTime,
          status := Status.Locked },
      Action.Emit (Event.Locked tradeId sender seller value hashLock
        (now + lockTime))] := by
  unfold lock at h
  split_ifs at h with h1 h2 h3
  · simp only [Except.ok.injEq, Prod.mk.injEq] at h
    exact ⟨h1, not_not.mp h2, h3, h.1.symm, h.2.symm⟩

theorem withdraw_ok_inv {l : Ledger} {tradeId preimage s1 s2 : Nat}
    {l2 : Ledger} {tr : List Action}
    (h : withdrawWithPreimage l tradeId preimage s1 s2 = .ok (l2, tr)) :
    (l tradeId).status = Status.Locked ∧
    sha256h (natToBytesBE 32 preimage) = (l tradeId).hashLock ∧
    ((s1 = (l tradeId).buyer ∨ s2 = (l tradeId).buyer) ∧
     (s1 = (l tradeId).seller ∨ s2 = (l tradeId).seller)) ∧
    l2 = setTrade l tradeId { l tradeId with status := Status.Completed } ∧
    tr = [Action.SetStatus tradeId Status.Completed,
      Action.Transfer (l tradeId).seller (l tradeId).amount,
      Action.Emit (Event.Withdrawn tradeId (l tradeId).seller
        "Preimage + MultiSig")] := by
  unfold withdrawWithPreimage at h
  dsimp only at h
  split_ifs at h with h1 h2 h3
  · simp only [Except.ok.injEq, Prod.mk.injEq] at h
    exact ⟨not_not.mp h1, not_not.mp h2, h3, h.1.symm, h.2.symm⟩

theorem resolve_ok_inv {l : Ledger} {tradeId recipient s1 s2 : Nat}
    {l2 : Ledger} {tr : List Action}
    (h : resolveDispute l tradeId recipient s1 s2 = .ok (l2, tr)) :
    (l tradeId).status = Status.Locked ∧
    (recipient = (l tradeId).buyer ∨ recipient = (l tradeId).seller) ∧
    2 ≤ validSignatures (l tradeId).buyer (l tradeId).seller
      (l tradeId).arbiter s1 s2 ∧
    l2 = setTrade l tradeId { l tradeId with status := Status.Completed } ∧
    tr = [Action.SetStatus tradeId Status.Completed,
      Action.Transfer recipient (l tradeId).amount,
      Action.Emit (Event.Withdrawn tradeId recipient "Arbitration")] := by
  unfold resolveDispute at h
  dsimp only at h
  split_ifs at h with h1 h2 h3
  · simp only [Except.ok.injEq, Prod.mk.injEq] at h
    exact ⟨not_not.mp h1, h2, not_lt.mp h3, h.1.symm, h.2.symm⟩

theorem refund_ok_inv {l : Ledger} {now tradeId : Nat} {l2 : Ledger}
    {tr : List Action} (h : refund l now tradeId = .ok (l2, tr)) :
    (l tradeId).status = Status.Locked ∧ (l tradeId).timelock ≤ now ∧
    l2 = setTrade l tradeId { l tradeId with status := Status.Refunded } ∧
    tr = [Action.SetStatus tradeId Status.Refunded,
      Action.Transfer (l tradeId).buyer (l tradeId).amount,
      Action.Emit (Event.Refunded tradeId (l tradeId).buyer)] := by
  unfold refund at h
  dsimp only at h
  split_ifs at h with h1 h2
  · simp only [Except.ok.injEq, Prod.mk.injEq] at h
    exact ⟨not_not.mp h1, not_lt.mp h2, h.1.symm, h.2.symm⟩

theorem withdraw_not_locked (l : Ledger) (tradeId p s1 s2 : Nat)
    (h : (l tradeId).status ≠ Status.Locked) :
    withdrawWithPreimage l tradeId p s1 s2 = .error Err.InvalidState := by
  simp [withdrawWithPreimage, h]

theorem resolve_not_locked (l : Ledger) (tradeId r s1 s2 : Nat)
    (h : (l tradeId).status ≠ Status.Locked) :
    resolveDispute l tradeId r s1 s2 = .error Err.InvalidState := by
  simp [resolveDispute, h]

theorem refund_not_locked (l : Ledger) (now tradeId : Nat)
    (h : (l tradeId).status ≠ Status.Locked) :
    refund l now tradeId = .error Err.InvalidState := by
  simp [refund, h]

/-- C1: for every trade, the status only ever transitions
`Uninitialized → Locked` (and only via `lock`, which touches no other trade)
or `Locked →` exactly one terminal state: `Completed` (via
`withdrawWithPreimage` or `resolveDispute`) or `Refunded` (via `refund`); each
of the three resolving operations invoked on a trade whose status is not
`Locked` (in particular on any terminal trade) fails with `InvalidState` and
leaves the ledger unchanged, so a trade can never pay out twice. -/
theorem status_transitions :
    (∀ l sender value now tradeId seller arbiter hashLock lockTime l2 tr,
        lock l sender value now tradeId seller arbiter hashLock lockTime =
          .ok (l2, tr) →
        (l tradeId).status = Status.Uninitialized ∧
        (l2 tradeId).status = Status.Locked ∧
        ∀ j, j ≠ tradeId → l2 j = l j) ∧
    (∀ l tradeId p s1 s2 l2 tr,
        withdrawWithPreimage l tradeId p s1 s2 = .ok (l2, tr) →
        (l tradeId).status = Status.Locked ∧
        (l2 tradeId).status = Status.Completed ∧
        ∀ j, j ≠ tradeId → l2 j = l j) ∧
    (∀ l tradeId r s1 s2 l2 tr,
        resolveDispute l tradeId r s1 s2 = .ok (l2, tr) →
        (l tradeId).status = Status.Locked ∧
        (l2 tradeId).status = Status.Completed ∧
        ∀ j, j ≠ tradeId → l2 j = l j) ∧
    (∀ l now tradeId l2 tr,
        refund l now tradeId = .ok (l2, tr) →
        (l tradeId).status = Status.Locked ∧
        (l2 tradeId).status = Status.Refunded ∧
        ∀ j, j ≠ tradeId → l2 j = l j) ∧
    (∀ l tradeId p s1 s2, (l tradeId).status ≠ Status.Locked →
        withdrawWithPreimage l tradeId p s1 s2 = .error Err.InvalidState ∧
        stateOf l (withdrawWithPreimage l tradeId p s1 s2) = l) ∧
    (∀ l tradeId r s1 s2, (l tradeId).status ≠ Status.Locked →
        resolveDispute l tradeId r s1 s2 = .error Err.InvalidState ∧
        stateOf l (resolveDispute l tradeId r s1 s2) = l) ∧
    (∀ l now tradeId, (l tradeId).status ≠ Status.Locked →
        refund l now tradeId = .error Err.InvalidState ∧
        stateOf l (refund l now tradeId) = l) := by
  refine ⟨?_, ?_, ?_, ?_, ?_, ?_, ?_⟩
  · intro l sender value now tradeId seller arbiter hashLock lockTime l2 tr h
    obtain ⟨-, hU, -, hl2, -⟩ := lock_ok_inv h
    subst hl2
    exact ⟨hU, by simp [setTrade_same], fun j hj => setTrade_ne l tradeId _ hj⟩
  · intro l tradeId p s1 s2 l2 tr h
    obtain ⟨hL, -, -, hl2, -⟩ := withdraw_ok_inv h
    subst hl2
    exact ⟨hL, by simp [setTrade_same], fun j hj => setTrade_ne l tradeId _ hj⟩
  · intro l tradeId r s1 s2 l2 tr h
    obtain ⟨hL, -, -, hl2, -⟩ := resolve_ok_inv h
    subst hl2
    exact ⟨hL, by simp [setTrade_same], fun j hj => setTrade_ne l tradeId _ hj⟩
  · intro l now tradeId l2 tr h
    obtain ⟨hL, -, hl2, -⟩ := refund_ok_inv h
    subst hl2
    exact ⟨hL, by simp [setTrade_same], fun j hj => setTrade_ne l tradeId _ hj⟩
  · intro l tradeId p s1 s2 h
    have he := withdraw_not_locked l tradeId p s1 s2 h
    exact ⟨he, by rw [he]; rfl⟩
  · intro l tradeId r s1 s2 h
    have he := resolve_not_locked l tradeId r s1 s2 h
    exact ⟨he, by rw [he]; rfl⟩
  · intro l now tradeId h
    have he := refund_not_locked l now tradeId h
    exact ⟨he, by rw [he]; rfl⟩

/-- Witness for C1: a `Completed` trade (and an absent one) rejects a further
resolution with `InvalidState` and the ledger is untouched. -/
theorem status_transitions_w :
    (withdrawWithPreimage ledgerB 11 0 0 0 = .error Err.InvalidState ∧
      stateOf ledgerB (withdrawWithPreimage ledgerB 11 0 0 0) = ledgerB) ∧
    (refund emptyLedger 0 10 = .error Err.InvalidState ∧
      stateOf emptyLedger (refund emptyLedger 0 10) = emptyLedger) :=
  ⟨status_transitions.2.2.2.2.1 ledgerB 11 0 0 0 (by decide),
   status_transitions.2.2.2.2.2.2 emptyLedger 0 10 (by decide)⟩

/-- Characterisation of the arbitration tally: assuming the first recovered
signer is not the null identity (ECDSA recovery never yields it — the library
reverts instead), the tally reaches the 2-of-3 threshold exactly when the two
recovered signers are distinct and both belong to the participant set. -/
theorem validSignatures_ge_two (b s a s1 s2 : Nat) (h1 : s1 ≠ 0) :
    2 ≤ validSignatures b s a s1 s2 ↔
      (s1 ≠ s2 ∧ (s1 = b ∨ s1 = s ∨ s1 = a) ∧ (s2 = b ∨ s2 = s ∨ s2 = a)) := by
  simp only [validSignatures, List.foldl, countStep, List.mem_cons,
    List.mem_singleton, List.not_mem_nil, or_false]
  split_ifs with hA hB hB <;> simp_all <;> omega

/-- C2: on a `Locked` trade and a permitted recipient, `resolveDispute`
succeeds if and only if the two recovered identities are distinct and both lie
in `{buyer, seller, arbiter}`; in particular, when both signatures recover to
one and the same party the call fails with `InsufficientDistinctSignatures` —
a signer counted for one signature is never counted again for the other.  The
recovered identities are assumed non-null, as the signature recovery of the
underlying library never returns the null identity. -/
theorem resolveDispute_two_distinct (l : Ledger) (tradeId recipient s1 s2 : Nat)
    (hst : (l tradeId).status = Status.Locked)
    (hrec : recipient = (l tradeId).buyer ∨ recipient = (l tradeId).seller)
    (h1 : s1 ≠ 0) (h2 : s2 ≠ 0) :
    (isOkE (resolveDispute l tradeId recipient s1 s2) = true ↔
      (s1 ≠ s2 ∧ inParticipants (l tradeId) s1 ∧ inParticipants (l tradeId) s2)) ∧
    (s1 = s2 →
      resolveDispute l tradeId recipient s1 s2 =
        .error Err.InsufficientDistinctSignatures) := by
  have hvs := validSignatures_ge_two (l tradeId).buyer (l tradeId).seller
    (l tradeId).arbiter s1 s2 h1
  have hred : resolveDispute l tradeId recipient s1 s2 =
      if validSignatures (l tradeId).buyer (l tradeId).seller
          (l tradeId).arbiter s1 s2 < 2
      then .error Err.InsufficientDistinctSignatures
      else .ok (setTrade l tradeId { l tradeId with status := Status.Completed },
        [Action.SetStatus tradeId Status.Completed,
         Action.Transfer recipient (l tradeId).amount,
         Action.Emit (Event.Withdrawn tradeId recipient "Arbitration")]) := by
    rcases hrec with hr | hr <;> simp [resolveDispute, hst, hr]
  constructor
  · rw [hred]
    by_cases hcount : validSignatures (l tradeId).buyer (l tradeId).seller
        (l tradeId).arbiter s1 s2 < 2
    · have hnr : ¬ (s1 ≠ s2 ∧ inParticipants (l tradeId) s1 ∧
          inParticipants (l tradeId) s2) := by
        intro hc
        exact absurd (hvs.mpr hc) (by omega)
      rw [if_pos hcount]
      constructor
      · intro hfalse
        simp [isOkE] at hfalse
      · intro hc
        exact absurd (hvs.mpr hc) (by omega)
    · rw [if_neg hcount]
      exact iff_of_true (by simp [isOkE]) (hvs.mp (not_lt.mp hcount))
  · intro he
    have hlt : validSignatures (l tradeId).buyer (l tradeId).seller
        (l tradeId).arbiter s1 s2 < 2 := by
      by_contra hge
      exact absurd he (hvs.mp (not_lt.mp hge)).1
    rw [hred, if_pos hlt]

/-- Witness for C2: on the concrete locked trade, buyer plus arbiter succeed,
and a duplicated signer is rejected. -/
theorem resolveDispute_two_distinct_w :
    ((isOkE (resolveDispute ledgerB 10 1 1 3) = true ↔
      ((1:Nat) ≠ 3 ∧ inParticipants (ledgerB 10) 1 ∧
        inParticipants (ledgerB 10) 3)) ∧
    ((1:Nat) = 3 →
      resolveDispute ledgerB 10 1 1 3 =
        .error Err.InsufficientDistinctSignatures)) ∧
    ((isOkE (resolveDispute ledgerB 10 1 2 2) = true ↔
      ((2:Nat) ≠ 2 ∧ inParticipants (ledgerB 10) 2 ∧
        inParticipants (ledgerB 10) 2)) ∧
    ((2:Nat) = 2 →
      resolveDispute ledgerB 10 1 2 2 =
        .error Err.InsufficientDistinctSignatures)) :=
  ⟨resolveDispute_two_distinct ledgerB 10 1 1 3 (by decide) (by decide)
      (by decide) (by decide),
   resolveDispute_two_distinct ledgerB 10 1 2 2 (by decide) (by decide)
      (by decide) (by decide)⟩

/-- Counterexample to C3 as stated: on a trade locked with `seller == buyer`
(which `lock` permits), `withdrawWithPreimage` succeeds although the recovered
pair is not `{buyer, seller}` in the claimed sense — the second signer (`3`)
is neither party — and it also succeeds when the buyer's signature is
submitted twice, which the claim says must fail. -/
theorem withdraw_pair_exact_cex :
    isOkE (withdrawWithPreimage ledgerA 10 7 1 3) = true ∧
    ¬ (((1:Nat) = (ledgerA 10).buyer ∧ (3:Nat) = (ledgerA 10).seller) ∨
       ((1:Nat) = (ledgerA 10).seller ∧ (3:Nat) = (ledgerA 10).buyer)) ∧
    isOkE (withdrawWithPreimage ledgerA 10 7 (ledgerA 10).buyer
      (ledgerA 10).buyer) = true := by
  decide

/-- C3 (amended): on a `Locked` trade whose buyer and seller are distinct,
`withdrawWithPreimage` succeeds if and only if the hash of the submitted
preimage equals the stored hash lock byte-exactly and the two recovered
identities, as an unordered pair, are exactly `{buyer, seller}`; in
particular, the buyer's signature submitted twice fails.  (When the trade was
locked with `seller == buyer` the coverage check degenerates and one party's
two signatures suffice.) -/
theorem withdraw_pair_exact (l : Ledger) (tradeId p s1 s2 : Nat)
    (hst : (l tradeId).status = Status.Locked)
    (hbs : (l tradeId).buyer ≠ (l tradeId).seller) :
    (isOkE (withdrawWithPreimage l tradeId p s1 s2) = true ↔
      (sha256h (natToBytesBE 32 p) = (l tradeId).hashLock ∧
        ((s1 = (l tradeId).buyer ∧ s2 = (l tradeId).seller) ∨
         (s1 = (l tradeId).seller ∧ s2 = (l tradeId).buyer)))) ∧
    isOkE (withdrawWithPreimage l tradeId p (l tradeId).buyer
      (l tradeId).buyer) = false := by
  constructor
  · by_cases hh : sha256h (natToBytesBE 32 p) = (l tradeId).hashLock
    · have key : ((s1 = (l tradeId).buyer ∨ s2 = (l tradeId).buyer) ∧
          (s1 = (l tradeId).seller ∨ s2 = (l tradeId).seller)) ↔
          ((s1 = (l tradeId).buyer ∧ s2 = (l tradeId).seller) ∨
           (s1 = (l tradeId).seller ∧ s2 = (l tradeId).buyer)) := by
        constructor <;> intro hc <;> omega
      by_cases hsig : (s1 = (l tradeId).buyer ∨ s2 = (l tradeId).buyer) ∧
          (s1 = (l tradeId).seller ∨ s2 = (l tradeId).seller)
      · simp [withdrawWithPreimage, hst, hh, hsig, isOkE, key.mp hsig]
      · simp only [withdrawWithPreimage, hst, hh, hsig, isOkE]
        simp [hst, hh, hsig]
        omega
    · simp [withdrawWithPreimage, hst, hh, isOkE]
  · have hsig : ¬ (((l tradeId).buyer = (l tradeId).buyer ∨
        (l tradeId).buyer = (l tradeId).buyer) ∧
        ((l tradeId).buyer = (l tradeId).seller ∨
         (l tradeId).buyer = (l tradeId).seller)) := by
      intro hc
      exact hbs (hc.2.elim id id)
    by_cases hh : sha256h (natToBytesBE 32 p) = (l tradeId).hashLock
    · simp [withdrawWithPreimage, hst, hh, hsig, hbs, isOkE]
    · simp [withdrawWithPreimage, hst, hh, isOkE]

/-- Witness for C3 (amended): the concrete well-formed trade, correct
preimage, buyer and seller signatures. -/
theorem withdraw_pair_exact_w :
    (isOkE (withdrawWithPreimage ledgerB 10 7 1 2) = true ↔
      (sha256h (natToBytesBE 32 7) = (ledgerB 10).hashLock ∧
        (((1:Nat) = (ledgerB 10).buyer ∧ (2:Nat) = (ledgerB 10).seller) ∨
         ((1:Nat) = (ledgerB 10).seller ∧ (2:Nat) = (ledgerB 10).buyer)))) ∧
    isOkE (withdrawWithPreimage ledgerB 10 7 (ledgerB 10).buyer
      (ledgerB 10).buyer) = false :=
  withdraw_pair_exact ledgerB 10 7 1 2 (by decide) (by decide)

/-- C5: `refund` succeeds if and only if the trade is `Locked` (in particular
it exists) and the current time has reached the timelock; before expiry of a
`Locked` trade it fails with `TimelockNotExpired` (whoever calls it — the call
takes no caller); on success it sets `status = Refunded`, transfers the full
`amount` back to the buyer and emits `Refunded(trade_id, buyer)`. -/
theorem refund_spec (l : Ledger) (now tradeId : Nat) :
    (isOkE (refund l now tradeId) = true ↔
      ((l tradeId).status = Status.Locked ∧ (l tradeId).timelock ≤ now)) ∧
    ((l tradeId).status = Status.Locked → now < (l tradeId).timelock →
      refund l now tradeId = .error Err.TimelockNotExpired) ∧
    (∀ l2 tr, refund l now tradeId = .ok (l2, tr) →
      l2 = setTrade l tradeId { l tradeId with status := Status.Refunded } ∧
      tr = [Action.SetStatus tradeId Status.Refunded,
        Action.Transfer (l tradeId).buyer (l tradeId).amount,
        Action.Emit (Event.Refunded tradeId (l tradeId).buyer)]) := by
  refine ⟨?_, ?_, ?_⟩
  · by_cases h1 : (l tradeId).status = Status.Locked
    · by_cases h2 : now < (l tradeId).timelock
      · simp [refund, h1, h2, isOkE]
        try omega
      · simp [refund, h1, h2, isOkE]
        try omega
    · simp [refund, h1, isOkE]
  · intro h1 h2
    simp [refund, h1, h2]
  · intro l2 tr h
    obtain ⟨-, -, hl2, htr⟩ := refund_ok_inv h
    exact ⟨hl2, htr⟩

/-- Witness for C5: before expiry the concrete locked trade refuses to refund
with `TimelockNotExpired`; at expiry the effects are exactly the terminal
write, the transfer to the buyer and the event. -/
theorem refund_spec_w :
    refund ledgerB 50 10 = .error Err.TimelockNotExpired ∧
    (setTrade ledgerB 10 { tradeB with status := Status.Refunded } =
        setTrade ledgerB 10 { ledgerB 10 with status := Status.Refunded } ∧
      [Action.SetStatus 10 Status.Refunded, Action.Transfer 1 5,
        Action.Emit (Event.Refunded 10 1)] =
        [Action.SetStatus 10 Status.Refunded,
          Action.Transfer (ledgerB 10).buyer (ledgerB 10).amount,
          Action.Emit (Event.Refunded 10 (ledgerB 10).buyer)]) :=
  ⟨(refund_spec ledgerB 50 10).2.1 (by decide) (by decide),
   (refund_spec ledgerB 100 10).2.2
     (setTrade ledgerB 10 { tradeB with status := Status.Refunded })
     [Action.SetStatus 10 Status.Refunded, Action.Transfer 1 5,
       Action.Emit (Event.Refunded 10 1)] rfl⟩

/-- Counterexample to C6 as stated: `lock` by caller `1` with `seller = 1`
(the caller) and a non-null arbiter succeeds — no policy check against the
caller exists; moreover with `amount = 0` and a null seller the call fails
with `ZeroAmount`, not `InvalidAddress`, because the amount check runs
first. -/
theorem lock_address_check_cex :
    isOkE (lock emptyLedger 1 5 0 10 1 2 99 100) = true ∧
    errOf (lock emptyLedger 1 0 0 10 0 2 99 100) = some Err.ZeroAmount := by
  decide

/-- C6 (amended): given a positive deposit and a fresh `trade_id`, `lock`
fails with `InvalidAddress` if and only if `seller` or `arbiter` is the null
identity; it does not reject `seller` or `arbiter` equal to the caller, and it
creates the trade whenever both are non-null.  (With a zero deposit the
`ZeroAmount` check fires first even if an address is null.) -/
theorem lock_address_check (l : Ledger)
    (sender value now tradeId seller arbiter hashLock lockTime : Nat)
    (hv : value ≠ 0) (hfresh : (l tradeId).status = Status.Uninitialized) :
    (lock l sender value now tradeId seller arbiter hashLock lockTime =
        .error Err.InvalidAddress ↔ (seller = 0 ∨ arbiter = 0)) ∧
    (seller ≠ 0 → arbiter ≠ 0 →
      isOkE (lock l sender value now tradeId seller arbiter hashLock
        lockTime) = true) := by
  constructor
  · by_cases hz : seller = 0 ∨ arbiter = 0
    · simp [lock, hv, hfresh, hz]
    · simp [lock, hv, hfresh, hz, isOkE]
  · intro hs ha
    have hz : ¬ (seller = 0 ∨ arbiter = 0) := by
      rintro (h | h)
      · exact hs h
      · exact ha h
    simp [lock, hv, hfresh, hz, isOkE]

/-- Witness for C6 (amended): concrete fresh ledger, caller locking themself
as seller. -/
theorem lock_address_check_w :
    (lock emptyLedger 1 5 0 10 1 2 99 100 = .error Err.InvalidAddress ↔
      ((1:Nat) = 0 ∨ (2:Nat) = 0)) ∧
    ((1:Nat) ≠ 0 → (2:Nat) ≠ 0 →
      isOkE (lock emptyLedger 1 5 0 10 1 2 99 100) = true) :=
  lock_address_check emptyLedger 1 5 0 10 1 2 99 100 (by decide) (by decide)

/-- Counterexample to C7 as stated: after a successful `lock` of trade `10`,
a second `lock` of the same trade identifier with a zero deposit fails with
`ZeroAmount` — not `DuplicateTradeId` — because the amount check precedes the
duplicate check. -/
theorem lock_duplicate_cex :
    isOkE (lock emptyLedger 1 5 0 10 2 3 99 100) = true ∧
    errOf (lock (stateOf emptyLedger (lock emptyLedger 1 5 0 10 2 3 99 100))
      4 0 7 10 6 8 11 12) = some Err.ZeroAmount ∧
    Err.ZeroAmount ≠ Err.DuplicateTradeId := by
  decide

/-- C7 (amended): `lock` with `amount == 0` always fails with `ZeroAmount`;
after a successful `lock` of a `trade_id`, every second `lock` of the same
`trade_id` fails with no side effects — no ledger change and no actions, so no
funds move — with error `DuplicateTradeId` whenever the second deposit is
nonzero, and `ZeroAmount` (checked first) when it is zero. -/
theorem lock_zero_and_duplicate :
    (∀ l sender now tradeId seller arbiter hashLock lockTime,
      lock l sender 0 now tradeId seller arbiter hashLock lockTime =
        .error Err.ZeroAmount) ∧
    (∀ l sender value now tradeId seller arbiter hashLock lockTime l2 tr,
      lock l sender value now tradeId seller arbiter hashLock lockTime =
        .ok (l2, tr) →
      ∀ sender2 value2 now2 seller2 arbiter2 hashLock2 lockTime2,
        (value2 ≠ 0 →
          lock l2 sender2 value2 now2 tradeId seller2 arbiter2 hashLock2
            lockTime2 = .error Err.DuplicateTradeId) ∧
        (value2 = 0 →
          lock l2 sender2 value2 now2 tradeId seller2 arbiter2 hashLock2
            lockTime2 = .error Err.ZeroAmount) ∧
        stateOf l2 (lock l2 sender2 value2 now2 tradeId seller2 arbiter2
          hashLock2 lockTime2) = l2 ∧
        traceOf (lock l2 sender2 value2 now2 tradeId seller2 arbiter2
          hashLock2 lockTime2) = []) := by
  constructor
  · intro l sender now tradeId seller arbiter hashLock lockTime
    simp [lock]
  · intro l sender value now tradeId seller arbiter hashLock lockTime l2 tr h
    intro sender2 value2 now2 seller2 arbiter2 hashLock2 lockTime2
    obtain ⟨-, -, -, hl2, -⟩ := lock_ok_inv h
    have hdup : (l2 tradeId).status ≠ Status.Uninitialized := by
      subst hl2
      simp [setTrade_same]
    have step :
        lock l2 sender2 value2 now2 tradeId seller2 arbiter2 hashLock2
          lockTime2 =
        (if value2 = 0 then .error Err.ZeroAmount
         else .error Err.DuplicateTradeId) := by
      by_cases hz : value2 = 0
      · simp [lock, hz]
      · simp [lock, hz, hdup]
    by_cases hz : value2 = 0
    · rw [step, if_pos hz]
      exact ⟨fun hc => absurd hz hc, fun _ => rfl, rfl, rfl⟩
    · rw [step, if_neg hz]
      exact ⟨fun _ => rfl, fun hc => absurd hc hz, rfl, rfl⟩

/-- Witness for C7: the duplicate-id rejection on the concretely locked
ledger. -/
theorem lock_zero_and_duplicate_w :
    lock (setTrade emptyLedger 10
      { buyer := 1, seller := 2, arbiter := 3, amount := 5, hashLock := 99,
        timelock := 100, status := Status.Locked }) 4 6 7 10 8 9 11 12 =
      .error Err.DuplicateTradeId :=
  (lock_zero_and_duplicate.2 emptyLedger 1 5 0 10 2 3 99 100 _ _ rfl
    4 6 7 8 9 11 12).1 (by decide)

/-- Shape lemma for the three resolving traces: in a trace consisting of a
terminal status write, then the transfer, then the event, every transfer is
preceded by the terminal status write, and the storage state obtained by
replaying the trace up to (excluding) the transfer no longer shows the trade
as `Locked`. -/
theorem trace_commit_shape (l : Ledger) (tradeId rec amt : Nat) (st : Status)
    (ev : Event) (hst : st ≠ Status.Locked) :
    ∀ j a v,
      ([Action.SetStatus tradeId st, Action.Transfer rec amt,
        Action.Emit ev]).get? j = some (Action.Transfer a v) →
      (∃ i st2, i < j ∧
        ([Action.SetStatus tradeId st, Action.Transfer rec amt,
          Action.Emit ev]).get? i = some (Action.SetStatus tradeId st2) ∧
        st2 ≠ Status.Locked) ∧
      ((applyActions l (([Action.SetStatus tradeId st,
          Action.Transfer rec amt, Action.Emit ev]).take j))
        tradeId).status ≠ Status.Locked := by
  intro j a v hj
  match j with
  | 0 => simp [List.get?] at hj
  | 1 =>
    refine ⟨⟨0, st, by omega, rfl, hst⟩, ?_⟩
    simp [applyActions, applyAction, setTrade_same]
    exact hst
  | 2 => simp [List.get?] at hj
  | (n + 3) => simp [List.get?] at hj

/-- C8: in every successful resolving operation the write that sets the
trade's status to its terminal value occurs in the action trace strictly
before the outbound value transfer, and replaying the trace up to the transfer
leaves the trade's status non-`Locked` — so a reentrant call against the same
`trade_id` issued during the transfer cannot observe `status == Locked` (and
hence, by the status guard, would fail with `InvalidState`). -/
theorem status_commit_before_transfer :
    (∀ l tradeId p s1 s2, isOkE (withdrawWithPreimage l tradeId p s1 s2) = true →
      ∀ j a v, (traceOf (withdrawWithPreimage l tradeId p s1 s2)).get? j =
          some (Action.Transfer a v) →
        (∃ i st, i < j ∧
          (traceOf (withdrawWithPreimage l tradeId p s1 s2)).get? i =
            some (Action.SetStatus tradeId st) ∧ st ≠ Status.Locked) ∧
        ((applyActions l ((traceOf (withdrawWithPreimage l tradeId p s1
            s2)).take j)) tradeId).status ≠ Status.Locked) ∧
    (∀ l tradeId r s1 s2, isOkE (resolveDispute l tradeId r s1 s2) = true →
      ∀ j a v, (traceOf (resolveDispute l tradeId r s1 s2)).get? j =
          some (Action.Transfer a v) →
        (∃ i st, i < j ∧
          (traceOf (resolveDispute l tradeId r s1 s2)).get? i =
            some (Action.SetStatus tradeId st) ∧ st ≠ Status.Locked) ∧
        ((applyActions l ((traceOf (resolveDispute l tradeId r s1
            s2)).take j)) tradeId).status ≠ Status.Locked) ∧
    (∀ l now tradeId, isOkE (refund l now tradeId) = true →
      ∀ j a v, (traceOf (refund l now tradeId)).get? j =
          some (Action.Transfer a v) →
        (∃ i st, i < j ∧
          (traceOf (refund l now tradeId)).get? i =
            some (Action.SetStatus tradeId st) ∧ st ≠ Status.Locked) ∧
        ((applyActions l ((traceOf (refund l now tradeId)).take j))
          tradeId).status ≠ Status.Locked) := by
  refine ⟨?_, ?_, ?_⟩
  · intro l tradeId p s1 s2 hok
    cases hc : withdrawWithPreimage l tradeId p s1 s2 with
    | error e => rw [hc] at hok; simp [isOkE] at hok
    | ok pr =>
      obtain ⟨l2, tr⟩ := pr
      obtain ⟨-, -, -, -, htr⟩ := withdraw_ok_inv hc
      simp only [traceOf, htr]
      exact trace_commit_shape l tradeId (l tradeId).seller (l tradeId).amount
        Status.Completed _ (by decide)
  · intro l tradeId r s1 s2 hok
    cases hc : resolveDispute l tradeId r s1 s2 with
    | error e => rw [hc] at hok; simp [isOkE] at hok
    | ok pr =>
      obtain ⟨l2, tr⟩ := pr
      obtain ⟨-, -, -, -, htr⟩ := resolve_ok_inv hc
      simp only [traceOf, htr]
      exact trace_commit_shape l tradeId r (l tradeId).amount
        Status.Completed _ (by decide)
  · intro l now tradeId hok
    cases hc : refund l now tradeId with
    | error e => rw [hc] at hok; simp [isOkE] at hok
    | ok pr =>
      obtain ⟨l2, tr⟩ := pr
      obtain ⟨-, -, -, htr⟩ := refund_ok_inv hc
      simp only [traceOf, htr]
      exact trace_commit_shape l tradeId (l tradeId).buyer (l tradeId).amount
        Status.Refunded _ (by decide)

/-- Witness for C8: the concrete preimage withdrawal commits `Completed`
before its transfer (position 1). -/
theorem status_commit_before_transfer_w :
    (∃ i st, i < 1 ∧
      (traceOf (withdrawWithPreimage ledgerB 10 7 1 2)).get? i =
        some (Action.SetStatus 10 st) ∧ st ≠ Status.Locked) ∧
    ((applyActions ledgerB ((traceOf (withdrawWithPreimage ledgerB 10 7 1
        2)).take 1)) 10).status ≠ Status.Locked :=
  status_commit_before_transfer.1 ledgerB 10 7 1 2 (by decide) 1 2 5
    (by decide)

/-- Counterexample to C9 as stated: the successful preimage withdrawal emits
the `Withdrawn` event with method string "Preimage + MultiSig", not
"preimage", and the successful arbitration emits method "Arbitration", not
"arbitration". -/
theorem withdrawn_event_method_cex :
    traceOf (withdrawWithPreimage ledgerB 10 7 1 2) =
      [Action.SetStatus 10 Status.Completed, Action.Transfer 2 5,
       Action.Emit (Event.Withdrawn 10 2 "Preimage + MultiSig")] ∧
    "Preimage + MultiSig" ≠ "preimage" ∧
    traceOf (resolveDispute ledgerB 10 1 1 3) =
      [Action.SetStatus 10 Status.Completed, Action.Transfer 1 5,
       Action.Emit (Event.Withdrawn 10 1 "Arbitration")] ∧
    "Arbitration" ≠ "arbitration" := by
  decide

/-- C9 (amended): on success, `withdrawWithPreimage` emits a `Withdrawn` event
carrying the `trade_id`, the seller as recipient and the method string
"Preimage + MultiSig", and `resolveDispute` emits a `Withdrawn` event carrying
the `trade_id`, the chosen recipient and the method string "Arbitration" (the
code's strings differ from the spec's "preimage"/"arbitration" labels). -/
theorem withdrawn_event_method :
    (∀ l tradeId p s1 s2 l2 tr,
      withdrawWithPreimage l tradeId p s1 s2 = .ok (l2, tr) →
      Action.Emit (Event.Withdrawn tradeId (l tradeId).seller
        "Preimage + MultiSig") ∈ tr) ∧
    (∀ l tradeId r s1 s2 l2 tr,
      resolveDispute l tradeId r s1 s2 = .ok (l2, tr) →
      Action.Emit (Event.Withdrawn tradeId r "Arbitration") ∈ tr) := by
  constructor
  · intro l tradeId p s1 s2 l2 tr h
    obtain ⟨-, -, -, -, htr⟩ := withdraw_ok_inv h
    subst htr
    simp
  · intro l tradeId r s1 s2 l2 tr h
    obtain ⟨-, -, -, -, htr⟩ := resolve_ok_inv h
    subst htr
    simp

/-- Witness for C9 (amended): the events of the two concrete successful
paths. -/
theorem withdrawn_event_method_w :
    Action.Emit (Event.Withdrawn 10 (ledgerB 10).seller
      "Preimage + MultiSig") ∈
      [Action.SetStatus 10 Status.Completed, Action.Transfer 2 5,
       Action.Emit (Event.Withdrawn 10 2 "Preimage + MultiSig")] ∧
    Action.Emit (Event.Withdrawn 10 1 "Arbitration") ∈
      [Action.SetStatus 10 Status.Completed, Action.Transfer 1 5,
       Action.Emit (Event.Withdrawn 10 1 "Arbitration")] :=
  ⟨withdrawn_event_method.1 ledgerB 10 7 1 2
      (setTrade ledgerB 10 { tradeB with status := Status.Completed }) _ rfl,
   withdrawn_event_method.2 ledgerB 10 1 1 3
      (setTrade ledgerB 10 { tradeB with status := Status.Completed }) _ rfl⟩

/-- C10: `lock` enforces no distinctness among the three parties beyond
`seller` and `arbiter` being non-null: it accepts `seller == caller`,
`arbiter == caller` and `seller == arbiter`; consequently, on a trade locked
with `seller == buyer`, `withdrawWithPreimage` with the correct preimage
accepts the same identity's signature twice — one party alone satisfies the
buyer/seller coverage check. -/
theorem lock_no_distinctness :
    (∀ l sender value now tradeId arbiter hashLock lockTime,
      value ≠ 0 → (l tradeId).status = Status.Uninitialized →
      sender ≠ 0 → arbiter ≠ 0 →
      isOkE (lock l sender value now tradeId sender arbiter hashLock
        lockTime) = true) ∧
    (∀ l sender value now tradeId seller hashLock lockTime,
      value ≠ 0 → (l tradeId).status = Status.Uninitialized →
      seller ≠ 0 → sender ≠ 0 →
      isOkE (lock l sender value now tradeId seller sender hashLock
        lockTime) = true) ∧
    (∀ l sender value now tradeId sellerArbiter hashLock lockTime,
      value ≠ 0 → (l tradeId).status = Status.Uninitialized →
      sellerArbiter ≠ 0 →
      isOkE (lock l sender value now tradeId sellerArbiter sellerArbiter
        hashLock lockTime) = true) ∧
    (∀ l tradeId p,
      (l tradeId).status = Status.Locked →
      (l tradeId).buyer = (l tradeId).seller →
      sha256h (natToBytesBE 32 p) = (l tradeId).hashLock →
      isOkE (withdrawWithPreimage l tradeId p (l tradeId).buyer
        (l tradeId).buyer) = true) := by
  refine ⟨?_, ?_, ?_, ?_⟩
  · intro l sender value now tradeId arbiter hashLock lockTime hv hf hs ha
    have hz : ¬ (sender = 0 ∨ arbiter = 0) := by
      rintro (h | h)
      · exact hs h
      · exact ha h
    simp [lock, hv, hf, hz, isOkE]
  · intro l sender value now tradeId seller hashLock lockTime hv hf hs ha
    have hz : ¬ (seller = 0 ∨ sender = 0) := by
      rintro (h | h)
      · exact hs h
      · exact ha h
    simp [lock, hv, hf, hz, isOkE]
  · intro l sender value now tradeId sellerArbiter hashLock lockTime hv hf hs
    simp [lock, hv, hf, hs, isOkE]
  · intro l tradeId p hst heq hh
    have hsig : ((l tradeId).buyer = (l tradeId).buyer ∨
        (l tradeId).buyer = (l tradeId).buyer) ∧
        ((l tradeId).buyer = (l tradeId).seller ∨
         (l tradeId).buyer = (l tradeId).seller) :=
      ⟨Or.inl rfl, Or.inl heq⟩
    simp [withdrawWithPreimage, hst, hh, hsig, heq, isOkE]

/-- Witness for C10: concrete degenerate locks and the degenerate double
signature succeeding. -/
theorem lock_no_distinctness_w :
    isOkE (lock emptyLedger 1 5 0 10 1 2 99 100) = true ∧
    isOkE (lock emptyLedger 1 5 0 10 2 1 99 100) = true ∧
    isOkE (lock emptyLedger 1 5 0 10 2 2 99 100) = true ∧
    isOkE (withdrawWithPreimage ledgerA 10 7 (ledgerA 10).buyer
      (ledgerA 10).buyer) = true :=
  ⟨lock_no_distinctness.1 emptyLedger 1 5 0 10 2 99 100 (by decide)
      (by decide) (by decide) (by decide),
   lock_no_distinctness.2.1 emptyLedger 1 5 0 10 2 99 100 (by decide)
      (by decide) (by decide) (by decide),
   lock_no_distinctness.2.2.1 emptyLedger 1 5 0 10 2 99 100 (by decide)
      (by decide) (by decide),
   lock_no_distinctness.2.2.2 ledgerA 10 7 (by decide) (by decide)
      (by decide)⟩

end HTLC
